import Mathlib

/-!
Verification of the API response cache of the SurveyAnalytics repository.

The component under study is the in-memory expiring cache (`APICache`),
the fetch memoization wrapper (`fetchWithCache`) and the pattern
invalidator (`clearCacheByPattern`).

Modelling conventions:
- Time is an explicit `now : Nat` argument (milliseconds since epoch);
  in the source every operation reads the clock via `Date.now()`.
- JavaScript values of the generic payload type `T` are modelled as
  `Option α`: `none` models the JS value `null`, `some a` models any
  non-null value.  This is faithful to the source, where `get` returns
  `T | null` and a stored `null` payload is conflated with a miss.
- The JS `Map<string, CacheItem>` is modelled as an association list with
  the usual Map semantics: lookup finds the first binding, `set` replaces
  an existing binding in place (preserving position, as JS Map does) or
  appends, `delete` removes the binding.
- Stateful methods return a pair of their result and the updated store.
- The network is an oracle: `fetchWithCache` receives the `NetResponse`
  the single `fetch` call of its body would observe, and reports in a
  boolean flag whether the network was actually consulted.
- A fallible call (`throw new Error`) is an `Except Nat` result carrying
  the HTTP status.
-/

/-- Cache entry: stored payload, write timestamp, absolute expiry instant.
Mirrors the source interface with fields `data`, `timestamp`, `expiresAt`;
`data : Option α` models the type-erased JS payload, `none` being JS
`null`. -/
structure CacheItem (α : Type) where
  data : Option α
  timestamp : Nat
  expiresAt : Nat
deriving DecidableEq, Repr

/-- Lookup of the first binding of `k`, as JS `Map.prototype.get`. -/
def mapGet {α : Type} (m : List (String × CacheItem α)) (k : String) :
    Option (CacheItem α) :=
  match m with
  | [] => none
  | (k', v) :: rest => if k' = k then some v else mapGet rest k

/-- Update the first binding of `k` in place, or append a new binding,
as JS `Map.prototype.set` (which keeps the insertion position of an
existing key). -/
def mapSet {α : Type} (m : List (String × CacheItem α)) (k : String)
    (v : CacheItem α) : List (String × CacheItem α) :=
  match m with
  | [] => [(k, v)]
  | (k', v') :: rest =>
    if k' = k then (k, v) :: rest else (k', v') :: mapSet rest k v

/-- Remove the binding of `k`, as JS `Map.prototype.delete`. -/
def mapDelete {α : Type} (m : List (String × CacheItem α)) (k : String) :
    List (String × CacheItem α) :=
  m.filter (fun p => p.1 ≠ k)

/-- The cache store: the `Map` of entries together with the default TTL
configured at construction. -/
structure APICache (α : Type) where
  cache : List (String × CacheItem α)
  defaultTTL : Nat
deriving DecidableEq, Repr

/-- The constructor `constructor(defaultTTL = 5 * 60 * 1000)`: an empty
map and the given default TTL. -/
def mkAPICache {α : Type} (defaultTTL : Nat) : APICache α :=
  ⟨[], defaultTTL⟩

/-- Default value of the constructor argument in the source
(five minutes, in milliseconds). -/
def apiCacheDefaultTTL : Nat := 5 * 60 * 1000

namespace APICache

/-- Source method `set(key, data, ttl?)`.  The expiry is
`now + (ttl || this.defaultTTL)`: JS `||` tests truthiness, so both an
absent `ttl` and `ttl = 0` fall back to the default TTL. -/
def set {α : Type} (c : APICache α) (now : Nat) (key : String)
    (data : Option α) (ttl : Option Nat) : APICache α :=
  let effTTL :=
    match ttl with
    | some t => if t = 0 then c.defaultTTL else t
    | none => c.defaultTTL
  { c with cache := mapSet c.cache key ⟨data, now, now + effTTL⟩ }

/-- Source method `get(key)`: returns the stored payload unless the key
is absent or `Date.now() > item.expiresAt`; an expired entry is deleted
as a side effect before returning `null` (modelled as `none`). -/
def get {α : Type} (c : APICache α) (now : Nat) (key : String) :
    Option α × APICache α :=
  match mapGet c.cache key with
  | none => (none, c)
  | some item =>
    if now > item.expiresAt then
      (none, { c with cache := mapDelete c.cache key })
    else
      (item.data, c)

/-- Source method `has(key)`: literally `this.get(key) !== null`,
including the lazy-purge side effect of the inner `get`. -/
def has {α : Type} (c : APICache α) (now : Nat) (key : String) :
    Bool × APICache α :=
  let r := c.get now key
  (r.1.isSome, r.2)

/-- Source method `delete(key)`. -/
def delete {α : Type} (c : APICache α) (key : String) : APICache α :=
  { c with cache := mapDelete c.cache key }

/-- Source method `clear()`. -/
def clear {α : Type} (c : APICache α) : APICache α :=
  { c with cache := [] }

/-- Source method `clearExpired()`: removes every entry with
`now > expiresAt`. -/
def clearExpired {α : Type} (c : APICache α) (now : Nat) : APICache α :=
  { c with cache := c.cache.filter (fun p => ¬ now > p.2.expiresAt) }

/-- Source method `size()`: raw entry count. -/
def size {α : Type} (c : APICache α) : Nat :=
  c.cache.length

/-- Source method `getStats()`: the pair of the entry count and the list
of all current keys. -/
def getStats {α : Type} (c : APICache α) : Nat × List String :=
  (c.cache.length, c.cache.map Prod.fst)

end APICache

/-- Outcome of the single `fetch` call inside `fetchWithCache`: HTTP
success flag (`response.ok`), status code, and the parsed JSON body
(`none` models a JSON `null` body). -/
structure NetResponse (α : Type) where
  ok : Bool
  status : Nat
  data : Option α
deriving DecidableEq, Repr

/-- Source function `fetchWithCache(url, options?, cacheTTL?)`.
`methodOpt` models `options?.method` (the only field of `options` the
function inspects); `none` or the empty string yield `"GET"` via the JS
truthiness test `options?.method || 'GET'`.  The result triple is the
returned value or thrown status, the store after the call, and whether
a network request was issued. -/
def fetchWithCache {α : Type} (c : APICache α) (now : Nat) (url : String)
    (methodOpt : Option String) (resp : NetResponse α)
    (cacheTTL : Option Nat) :
    Except Nat (Option α) × APICache α × Bool :=
  let method :=
    match methodOpt with
    | some m => if m = "" then "GET" else m
    | none => "GET"
  let cacheKey := method ++ ":" ++ url
  if method = "GET" then
    let r := c.get now cacheKey
    match r.1 with
    | some v => (Except.ok (some v), r.2, false)
    | none =>
      if resp.ok then
        (Except.ok resp.data, r.2.set now cacheKey resp.data cacheTTL, true)
      else
        (Except.error resp.status, r.2, true)
  else
    if resp.ok then
      (Except.ok resp.data, c, true)
    else
      (Except.error resp.status, c, true)

/-- Whether `pat` is a prefix of `s`, on character lists. -/
def listStartsWith : List Char → List Char → Bool
  | _, [] => true
  | [], _ :: _ => false
  | c :: cs, d :: ds => c = d && listStartsWith cs ds

/-- Whether `pat` occurs as a contiguous substring of `s`, on character
lists; the semantics of JS `String.prototype.includes`. -/
def listContainsSub : List Char → List Char → Bool
  | [], pat => listStartsWith [] pat
  | c :: cs, pat => listStartsWith (c :: cs) pat || listContainsSub cs pat

/-- JS `key.includes(pattern)`: substring containment. -/
def strIncludes (s pat : String) : Bool :=
  listContainsSub s.toList pat.toList

/-- Source function `clearCacheByPattern(pattern)`: enumerate the keys
via `getStats`, keep those containing `pattern` as a substring, delete
each from the store. -/
def clearCacheByPattern {α : Type} (c : APICache α) (pat : String) :
    APICache α :=
  let keys := c.getStats.2
  let matchedKeys := keys.filter (fun k => strIncludes k pat)
  matchedKeys.foldl (fun acc k => acc.delete k) c

/-- Concrete store used by several witnesses: default TTL 300000, a single
entry at key "k" with value 3 written at time 0 with TTL 5 (so
expiresAt = 5). -/
def cExpired : APICache Nat := (mkAPICache 300000).set 0 "k" (some 3) (some 5)

/-- Concrete store with a single entry under the GET cache key of url "u",
written at time 0 with TTL 5 — expired at any time after 5. -/
def cExpiredGet : APICache Nat :=
  (mkAPICache 300000).set 0 "GET:u" (some 1) (some 5)

/-- Concrete store holding a JS `null` payload (modelled `none`) under the
GET cache key of url "u", written at time 0 with the default TTL. -/
def cNull : APICache Nat := (mkAPICache 300000).set 0 "GET:u" none none

/-- Concrete store with the three keys of the pattern-invalidation
scenario. -/
def cThree : APICache Nat :=
  (((mkAPICache 300000).set 0 "GET:https://a/x" (some 1) none).set 0
      "GET:https://a/y" (some 2) none).set 0 "GET:https://b/z" (some 3) none

section MapLemmas

variable {α : Type}

theorem mapGet_mapSet_self (m : List (String × CacheItem α)) (k : String)
    (v : CacheItem α) : mapGet (mapSet m k v) k = some v := by
  induction m with
  | nil => simp [mapSet, mapGet]
  | cons p rest ih =>
    obtain ⟨k', v'⟩ := p
    by_cases h : k' = k
    · simp [mapSet, h, mapGet]
    · simp [mapSet, h, mapGet, ih]

theorem mapGet_mapSet_ne (m : List (String × CacheItem α)) (k k' : String)
    (v : CacheItem α) (h : k' ≠ k) :
    mapGet (mapSet m k v) k' = mapGet m k' := by
  induction m with
  | nil => simp [mapSet, mapGet, Ne.symm h]
  | cons p rest ih =>
    obtain ⟨k₀, v₀⟩ := p
    by_cases h0 : k₀ = k
    · subst h0
      simp [mapSet, mapGet, Ne.symm h]
    · by_cases h1 : k₀ = k'
      · simp [mapSet, h0, mapGet, h1, h]
      · simp [mapSet, h0, mapGet, h1, ih]

theorem mapGet_mapDelete (m : List (String × CacheItem α)) (k k₀ : String) :
    mapGet (mapDelete m k₀) k = if k = k₀ then none else mapGet m k := by
  induction m with
  | nil => simp [mapDelete, mapGet]
  | cons p rest ih =>
    obtain ⟨k', v'⟩ := p
    by_cases hk' : k' = k₀
    · subst hk'
      have hd : mapDelete ((k', v') :: rest) k' = mapDelete rest k' := by
        simp [mapDelete]
      rw [hd, ih]
      by_cases hk : k = k'
      · simp [hk]
      · simp [hk, mapGet, Ne.symm hk]
    · have hd : mapDelete ((k', v') :: rest) k₀ = (k', v') :: mapDelete rest k₀ := by
        simp [mapDelete, hk']
      rw [hd]
      by_cases hk : k' = k
      · subst hk
        simp [mapGet, hk']
      · by_cases hk0 : k = k₀
        · subst hk0
          simp [mapGet, hk', ih]
        · simp [mapGet, hk, hk0, ih]

theorem mapGet_eq_none_of_not_mem (m : List (String × CacheItem α))
    (k : String) (h : k ∉ m.map Prod.fst) : mapGet m k = none := by
  induction m with
  | nil => simp [mapGet]
  | cons p rest ih =>
    obtain ⟨k', v'⟩ := p
    simp only [List.map_cons, List.mem_cons] at h
    push_neg at h
    simp [mapGet, Ne.symm h.1, ih h.2]

theorem mem_of_mapGet_eq_some (m : List (String × CacheItem α))
    (k : String) (it : CacheItem α) (h : mapGet m k = some it) :
    (k, it) ∈ m := by
  induction m with
  | nil => simp [mapGet] at h
  | cons p rest ih =>
    obtain ⟨k', v'⟩ := p
    by_cases hk : k' = k
    · rw [mapGet, if_pos hk] at h
      injection h with h
      subst hk
      subst h
      exact List.mem_cons_self _ _
    · rw [mapGet, if_neg hk] at h
      exact List.mem_cons_of_mem _ (ih h)

theorem mem_keys_of_mapGet_eq_some (m : List (String × CacheItem α))
    (k : String) (it : CacheItem α) (h : mapGet m k = some it) :
    k ∈ m.map Prod.fst :=
  List.mem_map.mpr ⟨(k, it), mem_of_mapGet_eq_some m k it h, rfl⟩

theorem length_mapDelete_lt (m : List (String × CacheItem α))
    (k : String) (it : CacheItem α) (h : (k, it) ∈ m) :
    (mapDelete m k).length < m.length := by
  induction m with
  | nil => cases h
  | cons p rest ih =>
    by_cases hp : p.1 = k
    · have hle : (mapDelete rest k).length ≤ rest.length :=
        List.length_filter_le _ _
      have hd : mapDelete (p :: rest) k = mapDelete rest k := by
        simp [mapDelete, hp]
      rw [hd]
      exact Nat.lt_succ_of_le hle
    · have hmem : (k, it) ∈ rest := by
        rcases List.mem_cons.mp h with h1 | h1
        · exact absurd (congrArg Prod.fst h1.symm) hp
        · exact h1
      have hd : mapDelete (p :: rest) k = p :: mapDelete rest k := by
        simp [mapDelete, hp]
      rw [hd]
      simpa using Nat.succ_lt_succ (ih hmem)

end MapLemmas

section StoreLemmas

/-- After a `get` that missed, another `get` of the same key at the same
instant still misses: the absent case leaves the store alone, the expired
case deletes the entry, and the fresh-but-null case returns the stored
`null` again. -/
theorem get_miss_idem (c : APICache Nat) (now : Nat) (k : String)
    (h : (c.get now k).1 = none) :
    (((c.get now k).2).get now k).1 = none := by
  unfold APICache.get at h ⊢
  cases hfind : mapGet c.cache k with
  | none => simp [hfind]
  | some item =>
    by_cases hexp : now > item.expiresAt
    · simp [hfind, hexp, mapGet_mapDelete]
    · simp [hfind, hexp] at h ⊢
      exact h

end StoreLemmas

/-- C1 counterexample: with ttl = 5, a `get` exactly at t = ttl after the
set still returns the value, because the source tests
`Date.now() > item.expiresAt` strictly; the claim says the read at
t = ttl must be absent. -/
theorem ttl_boundary_counterexample :
    ((((mkAPICache 300000 : APICache Nat).set 0 "k" (some 1) (some 5))).get 5 "k").1
        = some 1 ∧
    ¬ ((((mkAPICache 300000 : APICache Nat).set 0 "k" (some 1) (some 5))).get 5 "k").1
        = none := by
  constructor
  · rfl
  · intro h
    simp [APICache.set, APICache.get, mapSet, mapGet, mkAPICache] at h

/-- C1 amended: for every ttl > 0, a (non-null) value set with that TTL is
retrievable via `get` at any time t ≤ ttl after the set, and is absent for
any read at t > ttl — the boundary read at t = ttl still returns the
value. -/
theorem ttl_expiry_amended (c : APICache Nat) (t0 ttl t : Nat) (k : String)
    (v : Nat) (httl : 0 < ttl) :
    (t ≤ ttl →
      ((c.set t0 k (some v) (some ttl)).get (t0 + t) k).1 = some v) ∧
    (ttl < t →
      ((c.set t0 k (some v) (some ttl)).get (t0 + t) k).1 = none) := by
  have hset : mapGet ((c.set t0 k (some v) (some ttl)).cache) k
      = some ⟨some v, t0, t0 + ttl⟩ := by
    unfold APICache.set
    simp [Nat.pos_iff_ne_zero.mp httl, mapGet_mapSet_self]
  constructor
  · intro hle
    have hcond : ¬ (t0 + t > t0 + ttl) := by omega
    simp [APICache.get, hset, hcond]
  · intro hlt
    have hcond : t0 + t > t0 + ttl := by omega
    simp [APICache.get, hset, hcond]

/-- C1 witness for the amended theorem: ttl = 5, read at t = 3. -/
theorem ttl_expiry_amended_w :
    (((mkAPICache 300000 : APICache Nat).set 0 "k" (some 7) (some 5)).get (0 + 3) "k").1
      = some 7 :=
  (ttl_expiry_amended (mkAPICache 300000) 0 5 3 "k" 7 (by decide)).1 (by decide)

/-- C3 counterexample: `set` with an explicit ttl = 0 stores
expiresAt = now + defaultTTL (here 7 + 300000), not now + 0, because the
source computes `ttl || this.defaultTTL` and 0 is falsy in JS. -/
theorem set_zero_ttl_counterexample :
    mapGet (((mkAPICache 300000 : APICache Nat).set 7 "k" (some 1) (some 0)).cache) "k"
        = some ⟨some 1, 7, 300007⟩ ∧
    (300007 : Nat) ≠ 7 + 0 := by
  exact ⟨rfl, by decide⟩

/-- C3 amended: `set(key, value, ttl)` always succeeds and writes an entry
with the given value and expiresAt = now + ttl whenever the supplied ttl
is nonzero; an absent ttl and ttl = 0 both fall back to the default TTL.
The write overwrites any existing entry unconditionally and leaves every
other key unchanged. -/
theorem set_spec_amended (c : APICache Nat) (now : Nat) (k : String)
    (v : Option Nat) (ttl : Option Nat) :
    (∀ u, ttl = some u → u ≠ 0 →
        mapGet ((c.set now k v ttl).cache) k = some ⟨v, now, now + u⟩) ∧
    ((ttl = none ∨ ttl = some 0) →
        mapGet ((c.set now k v ttl).cache) k
          = some ⟨v, now, now + c.defaultTTL⟩) ∧
    (∀ k', k' ≠ k → mapGet ((c.set now k v ttl).cache) k' = mapGet c.cache k') := by
  refine ⟨?_, ?_, ?_⟩
  · rintro u rfl hu
    unfold APICache.set
    simp [hu, mapGet_mapSet_self]
  · rintro (rfl | rfl) <;>
      · unfold APICache.set
        simp [mapGet_mapSet_self]
  · intro k' hk'
    unfold APICache.set
    exact mapGet_mapSet_ne _ _ _ _ hk'

/-- C3 witness for the amended theorem: a nonzero supplied ttl is used
as-is. -/
theorem set_spec_amended_w :
    mapGet (((mkAPICache 300000 : APICache Nat).set 2 "k" (some 9) (some 4)).cache) "k"
      = some ⟨some 9, 2, 2 + 4⟩ :=
  (set_spec_amended (mkAPICache 300000) 2 "k" (some 9) (some 4)).1 4 rfl (by decide)

/-- C7: a `get` on a key whose entry is expired at read time returns the
absent signal, removes the key from the store (so a subsequent `stats`
does not list it), and leaves the entries of all other keys unchanged. -/
theorem lazy_purge_on_get (c : APICache Nat) (now : Nat) (k : String)
    (item : CacheItem Nat) (hfind : mapGet c.cache k = some item)
    (hexp : item.expiresAt < now) :
    (c.get now k).1 = none ∧
    k ∉ ((c.get now k).2.getStats).2 ∧
    (∀ k', k' ≠ k → mapGet ((c.get now k).2).cache k' = mapGet c.cache k') := by
  have hg : c.get now k = (none, { c with cache := mapDelete c.cache k }) := by
    simp [APICache.get, hfind, hexp]
  refine ⟨by simp [hg], ?_, ?_⟩
  · rw [hg]
    intro hmem
    rcases List.mem_map.mp hmem with ⟨p, hp, hfst⟩
    rcases List.mem_filter.mp hp with ⟨_, hne⟩
    have hpk : p.1 ≠ k := by simpa using hne
    exact hpk hfst
  · intro k' hk'
    rw [hg]
    simp [mapGet_mapDelete, hk']

/-- C7 witness: the single entry of `cExpired` (expiresAt = 5) read at
time 10 is reported absent, purged from the stats listing, and no other
key is affected. -/
theorem lazy_purge_on_get_w :
    (cExpired.get 10 "k").1 = none ∧
    "k" ∉ ((cExpired.get 10 "k").2.getStats).2 ∧
    (∀ k', k' ≠ "k" →
        mapGet ((cExpired.get 10 "k").2).cache k' = mapGet cExpired.cache k') :=
  lazy_purge_on_get cExpired 10 "k" ⟨some 3, 0, 5⟩ rfl (by decide)

/-- C8: `has` returns true exactly when `get` would return a non-null
value at the same moment (it is literally defined from `get`), and in
particular `has` is false on a present-but-expired entry. -/
theorem has_iff_get (c : APICache Nat) (now : Nat) (k : String) :
    ((c.has now k).1 = true ↔ (c.get now k).1.isSome = true) ∧
    (∀ item, mapGet c.cache k = some item → item.expiresAt < now →
        (c.has now k).1 = false) := by
  constructor
  · simp [APICache.has]
  · intro item hfind hexp
    simp [APICache.has, APICache.get, hfind, hexp]

/-- C8 witness: on `cExpired` at time 10 the key "k" is present but
expired, and `has` answers false, agreeing with `get`. -/
theorem has_iff_get_w :
    (((cExpired.has 10 "k").1 = true ↔ (cExpired.get 10 "k").1.isSome = true)) ∧
    (cExpired.has 10 "k").1 = false :=
  ⟨(has_iff_get cExpired 10 "k").1,
   (has_iff_get cExpired 10 "k").2 ⟨some 3, 0, 5⟩ rfl (by decide)⟩

/-- C10: `has` on an expired entry answers false and, through the inner
`get`, deletes the entry, so the store afterwards no longer contains the
key and its size strictly decreased. -/
theorem has_purges_expired (c : APICache Nat) (now : Nat) (k : String)
    (item : CacheItem Nat) (hfind : mapGet c.cache k = some item)
    (hexp : item.expiresAt < now) :
    (c.has now k).1 = false ∧
    ((c.has now k).2).cache = mapDelete c.cache k ∧
    mapGet (((c.has now k).2).cache) k = none ∧
    ((c.has now k).2).size < c.size := by
  have hg : c.get now k = (none, { c with cache := mapDelete c.cache k }) := by
    simp [APICache.get, hfind, hexp]
  have hh : c.has now k = (false, { c with cache := mapDelete c.cache k }) := by
    simp [APICache.has, hg]
  refine ⟨by simp [hh], by simp [hh], ?_, ?_⟩
  · simp [hh, mapGet_mapDelete]
  · have hlt : (mapDelete c.cache k).length < c.cache.length :=
      length_mapDelete_lt c.cache k item (mem_of_mapGet_eq_some _ _ _ hfind)
    simpa [hh, APICache.size] using hlt

/-- C10 witness: on `cExpired` at time 10, `has "k"` is false and shrinks
the store. -/
theorem has_purges_expired_w :
    (cExpired.has 10 "k").1 = false ∧
    ((cExpired.has 10 "k").2).cache = mapDelete cExpired.cache "k" ∧
    mapGet (((cExpired.has 10 "k").2).cache) "k" = none ∧
    ((cExpired.has 10 "k").2).size < cExpired.size :=
  has_purges_expired cExpired 10 "k" ⟨some 3, 0, 5⟩ rfl (by decide)

/-- Normalisation of the derived cache key for the default GET method. -/
theorem getKey_eq (url : String) :
    ("GET" ++ ":" ++ url : String) = "GET:" ++ url := by
  rw [show ("GET" ++ ":" : String) = "GET:" from rfl]

/-- `fetchWithCache` on a GET whose cache lookup hits returns the cached
value without touching the network. -/
theorem fetch_hit (c : APICache Nat) (now : Nat) (url : String)
    (v : Nat) (resp : NetResponse Nat) (ttl : Option Nat)
    (hhit : (c.get now ("GET:" ++ url)).1 = some v) :
    fetchWithCache c now url none resp ttl
      = (Except.ok (some v), (c.get now ("GET:" ++ url)).2, false) := by
  simp only [fetchWithCache, getKey_eq]
  simp [hhit]

/-- `fetchWithCache` on a GET miss with a successful response stores the
body under the derived key and returns it. -/
theorem fetch_miss_ok (c : APICache Nat) (now : Nat) (url : String)
    (resp : NetResponse Nat) (ttl : Option Nat)
    (hmiss : (c.get now ("GET:" ++ url)).1 = none) (hok : resp.ok = true) :
    fetchWithCache c now url none resp ttl
      = (Except.ok resp.data,
         ((c.get now ("GET:" ++ url)).2).set now ("GET:" ++ url) resp.data ttl,
         true) := by
  simp only [fetchWithCache, getKey_eq]
  simp [hmiss, hok]

/-- `fetchWithCache` on a GET miss with a failed response throws the
status and writes nothing; the store is the one left by the lookup. -/
theorem fetch_miss_fail (c : APICache Nat) (now : Nat) (url : String)
    (resp : NetResponse Nat) (ttl : Option Nat)
    (hmiss : (c.get now ("GET:" ++ url)).1 = none) (hok : resp.ok = false) :
    fetchWithCache c now url none resp ttl
      = (Except.error resp.status, (c.get now ("GET:" ++ url)).2, true) := by
  simp only [fetchWithCache, getKey_eq]
  simp [hmiss, hok]

/-- A `get` issued at the same instant as a `set` of the same key returns
exactly the stored payload (the freshly written entry cannot be expired). -/
theorem get_set_same (c : APICache Nat) (now : Nat) (k : String)
    (d : Option Nat) (ttl : Option Nat) :
    (c.set now k d ttl).get now k = (d, c.set now k d ttl) := by
  obtain ⟨e, he⟩ : ∃ e, mapGet ((c.set now k d ttl).cache) k
      = some ⟨d, now, now + e⟩ := by
    unfold APICache.set
    exact ⟨_, mapGet_mapSet_self _ _ _⟩
  unfold APICache.get
  rw [he]
  have hc : ¬ (now > now + e) := by omega
  simp [hc]

/-- C2 counterexample: a failed GET fetch does change the cache store when
the key held an already-expired entry — the lookup inside the call lazily
purges it.  Here the entry written at time 0 with TTL 5 is purged by the
failed call at time 10, so the store before and after differ. -/
theorem failed_fetch_store_changed_counterexample :
    (fetchWithCache cExpiredGet 10 "u" none ⟨false, 500, none⟩ none).1
        = Except.error 500 ∧
    (fetchWithCache cExpiredGet 10 "u" none ⟨false, 500, none⟩ none).2.1
        ≠ cExpiredGet := by
  exact ⟨rfl, by decide⟩

/-- C2 amended: a GET `fetchWithCache` that reaches the network (cache
miss) and gets a non-success response throws the status code, writes
nothing — the resulting store is exactly the one left by the cache lookup,
which can only have lazily purged the already-stale entry of that key —
a subsequent `get` for the key is absent, and a subsequent
`fetchWithCache` for the same URL again consults the network. -/
theorem failure_non_caching_amended (c : APICache Nat) (now : Nat)
    (url : String) (resp resp2 : NetResponse Nat) (ttl ttl2 : Option Nat)
    (hok : resp.ok = false)
    (hmiss : (c.get now ("GET:" ++ url)).1 = none) :
    (fetchWithCache c now url none resp ttl).1 = Except.error resp.status ∧
    (fetchWithCache c now url none resp ttl).2.2 = true ∧
    (fetchWithCache c now url none resp ttl).2.1
        = (c.get now ("GET:" ++ url)).2 ∧
    (((fetchWithCache c now url none resp ttl).2.1).get now
        ("GET:" ++ url)).1 = none ∧
    (fetchWithCache (fetchWithCache c now url none resp ttl).2.1 now url
        none resp2 ttl2).2.2 = true := by
  have h1 := fetch_miss_fail c now url resp ttl hmiss hok
  have hm2 : (((c.get now ("GET:" ++ url)).2).get now ("GET:" ++ url)).1 = none :=
    get_miss_idem c now _ hmiss
  refine ⟨by rw [h1], by rw [h1], by rw [h1], by rw [h1]; exact hm2, ?_⟩
  rw [h1]
  cases hro : resp2.ok
  · rw [fetch_miss_fail _ _ _ _ _ hm2 hro]
  · rw [fetch_miss_ok _ _ _ _ _ hm2 hro]

/-- C2 witness: the amended theorem at the concrete expired store, time
10, a 500 response. -/
theorem failure_non_caching_amended_w :
    (fetchWithCache cExpiredGet 10 "u" none ⟨false, 500, none⟩ none).1
        = Except.error (500 : Nat) ∧
    (fetchWithCache cExpiredGet 10 "u" none ⟨false, 500, none⟩ none).2.2
        = true ∧
    (fetchWithCache cExpiredGet 10 "u" none ⟨false, 500, none⟩ none).2.1
        = (cExpiredGet.get 10 ("GET:" ++ "u")).2 ∧
    (((fetchWithCache cExpiredGet 10 "u" none ⟨false, 500, none⟩ none).2.1).get
        10 ("GET:" ++ "u")).1 = none ∧
    (fetchWithCache
        (fetchWithCache cExpiredGet 10 "u" none ⟨false, 500, none⟩ none).2.1
        10 "u" none ⟨true, 200, some 2⟩ none).2.2 = true :=
  failure_non_caching_amended cExpiredGet 10 "u" ⟨false, 500, none⟩
    ⟨true, 200, some 2⟩ none none rfl rfl

/-- C4 counterexample: for a GET whose body parses to JSON `null`, the
first call succeeds and caches `null`, yet the second immediate call
misses again (a stored null is indistinguishable from a miss) and issues
a second network request — two calls, two network requests, against the
claimed "exactly one". -/
theorem null_data_double_fetch_counterexample :
    (fetchWithCache (mkAPICache 300000 : APICache Nat) 0 "u" none
        ⟨true, 200, none⟩ none).1 = Except.ok none ∧
    (fetchWithCache (mkAPICache 300000 : APICache Nat) 0 "u" none
        ⟨true, 200, none⟩ none).2.2 = true ∧
    (fetchWithCache
        (fetchWithCache (mkAPICache 300000 : APICache Nat) 0 "u" none
          ⟨true, 200, none⟩ none).2.1
        0 "u" none ⟨true, 200, none⟩ none).2.2 = true :=
  ⟨rfl, rfl, rfl⟩

/-- C4 amended: two immediate `fetchWithCache` calls for the same GET URL,
starting from a miss, with the first response successful and carrying a
non-null body, issue exactly one network request between them (the first
consults the network, the second does not) and both return the same
value. -/
theorem miss_then_fetch_amended (c : APICache Nat) (now : Nat)
    (url : String) (v : Nat) (resp1 resp2 : NetResponse Nat)
    (ttl ttl2 : Option Nat)
    (hmiss : (c.get now ("GET:" ++ url)).1 = none)
    (hok : resp1.ok = true) (hdata : resp1.data = some v) :
    (fetchWithCache c now url none resp1 ttl).2.2 = true ∧
    (fetchWithCache c now url none resp1 ttl).1 = Except.ok (some v) ∧
    (fetchWithCache (fetchWithCache c now url none resp1 ttl).2.1 now url
        none resp2 ttl2).2.2 = false ∧
    (fetchWithCache (fetchWithCache c now url none resp1 ttl).2.1 now url
        none resp2 ttl2).1 = (fetchWithCache c now url none resp1 ttl).1 := by
  have h1 := fetch_miss_ok c now url resp1 ttl hmiss hok
  rw [hdata] at h1
  have h2 : ((((c.get now ("GET:" ++ url)).2).set now ("GET:" ++ url)
      (some v) ttl).get now ("GET:" ++ url)).1 = some v := by
    rw [get_set_same]
  have h3 := fetch_hit (((c.get now ("GET:" ++ url)).2).set now
      ("GET:" ++ url) (some v) ttl) now url v resp2 ttl2 h2
  refine ⟨by rw [h1], by rw [h1], ?_, ?_⟩
  · rw [h1]
    simpa using congrArg (fun t => t.2.2) h3
  · rw [h1]
    simpa using congrArg (fun t => t.1) h3

/-- C4 witness: empty store, response body 5; the second call is a cache
hit with the same value and no network request. -/
theorem miss_then_fetch_amended_w :
    (fetchWithCache (mkAPICache 300000 : APICache Nat) 0 "u" none
        ⟨true, 200, some 5⟩ none).2.2 = true ∧
    (fetchWithCache (mkAPICache 300000 : APICache Nat) 0 "u" none
        ⟨true, 200, some 5⟩ none).1 = Except.ok (some 5) ∧
    (fetchWithCache
        (fetchWithCache (mkAPICache 300000 : APICache Nat) 0 "u" none
          ⟨true, 200, some 5⟩ none).2.1
        0 "u" none ⟨true, 200, some 9⟩ none).2.2 = false ∧
    (fetchWithCache
        (fetchWithCache (mkAPICache 300000 : APICache Nat) 0 "u" none
          ⟨true, 200, some 5⟩ none).2.1
        0 "u" none ⟨true, 200, some 9⟩ none).1
      = (fetchWithCache (mkAPICache 300000 : APICache Nat) 0 "u" none
          ⟨true, 200, some 5⟩ none).1 :=
  miss_then_fetch_amended (mkAPICache 300000) 0 "u" 5 ⟨true, 200, some 5⟩
    ⟨true, 200, some 9⟩ none none rfl rfl rfl

/-- C5: a `fetchWithCache` whose method is neither "GET" nor the empty
string (which the source's truthiness test maps to GET) always performs
the network request, returns the network outcome rather than any cached
value, and leaves the store exactly unchanged. -/
theorem non_get_bypass (c : APICache Nat) (now : Nat) (url : String)
    (m : String) (resp : NetResponse Nat) (ttl : Option Nat)
    (hm : m ≠ "GET") (hm' : m ≠ "") :
    (fetchWithCache c now url (some m) resp ttl).2.1 = c ∧
    (fetchWithCache c now url (some m) resp ttl).2.2 = true ∧
    (fetchWithCache c now url (some m) resp ttl).1
      = (if resp.ok then Except.ok resp.data else Except.error resp.status) := by
  simp only [fetchWithCache]
  by_cases hr : resp.ok <;> simp [hm, hm', hr]

/-- C5 witness: a POST against a populated store at time 10. -/
theorem non_get_bypass_w :
    (fetchWithCache cExpiredGet 10 "u" (some "POST")
        (⟨true, 200, some 5⟩ : NetResponse Nat) none).2.1 = cExpiredGet ∧
    (fetchWithCache cExpiredGet 10 "u" (some "POST")
        (⟨true, 200, some 5⟩ : NetResponse Nat) none).2.2 = true ∧
    (fetchWithCache cExpiredGet 10 "u" (some "POST")
        (⟨true, 200, some 5⟩ : NetResponse Nat) none).1
      = (if (⟨true, 200, some 5⟩ : NetResponse Nat).ok
          then Except.ok (some 5) else Except.error 200) :=
  non_get_bypass cExpiredGet 10 "u" "POST" ⟨true, 200, some 5⟩ none
    (by decide) (by decide)

/-- C9: an unexpired entry whose stored payload is the JS value `null` is
indistinguishable from a miss at the public interface: `get` returns the
absent signal, `has` answers false, `fetchWithCache` for the URL consults
the network on this call and — when the response body is again null — on
the next call too; yet the entry is still counted (the `get` leaves the
store untouched and the key is listed by `getStats`). -/
theorem null_value_indistinguishable (c : APICache Nat) (now : Nat)
    (url : String) (item : CacheItem Nat) (resp : NetResponse Nat)
    (ttl : Option Nat)
    (hfind : mapGet c.cache ("GET:" ++ url) = some item)
    (hnull : item.data = none) (hfresh : now ≤ item.expiresAt) :
    (c.get now ("GET:" ++ url)).1 = none ∧
    (c.has now ("GET:" ++ url)).1 = false ∧
    (c.get now ("GET:" ++ url)).2 = c ∧
    ("GET:" ++ url) ∈ c.getStats.2 ∧
    (fetchWithCache c now url none resp ttl).2.2 = true ∧
    (resp.ok = true → resp.data = none →
      (fetchWithCache (fetchWithCache c now url none resp ttl).2.1 now url
          none resp ttl).2.2 = true) := by
  have hcond : ¬ (now > item.expiresAt) := by omega
  have hg : c.get now ("GET:" ++ url) = (none, c) := by
    simp [APICache.get, hfind, hcond, hnull]
  have hmiss : (c.get now ("GET:" ++ url)).1 = none := by rw [hg]
  have hflag : (fetchWithCache c now url none resp ttl).2.2 = true := by
    cases hro : resp.ok
    · rw [fetch_miss_fail _ _ _ _ _ hmiss hro]
    · rw [fetch_miss_ok _ _ _ _ _ hmiss hro]
  refine ⟨hmiss, by simp [APICache.has, hg], by rw [hg],
    mem_keys_of_mapGet_eq_some _ _ _ hfind, hflag, ?_⟩
  intro hro hrd
  have h1 := fetch_miss_ok c now url resp ttl hmiss hro
  rw [hrd] at h1
  have h2 : ((((c.get now ("GET:" ++ url)).2).set now ("GET:" ++ url)
      none ttl).get now ("GET:" ++ url)).1 = none := by
    rw [get_set_same]
  rw [h1]
  dsimp only
  cases hro2 : resp.ok
  · rw [fetch_miss_fail _ _ _ _ _ h2 hro2]
  · rw [fetch_miss_ok _ _ _ _ _ h2 hro2]

/-- C9 witness: the concrete store `cNull` holding `null` under
"GET:u", read at time 10 with a null-bodied 200 response. -/
theorem null_value_indistinguishable_w :
    (cNull.get 10 ("GET:" ++ "u")).1 = none ∧
    (cNull.has 10 ("GET:" ++ "u")).1 = false ∧
    (cNull.get 10 ("GET:" ++ "u")).2 = cNull ∧
    ("GET:" ++ "u") ∈ cNull.getStats.2 ∧
    (fetchWithCache cNull 10 "u" none ⟨true, 200, none⟩ none).2.2 = true ∧
    ((⟨true, 200, none⟩ : NetResponse Nat).ok = true →
      (⟨true, 200, none⟩ : NetResponse Nat).data = none →
      (fetchWithCache (fetchWithCache cNull 10 "u" none ⟨true, 200, none⟩
          none).2.1 10 "u" none ⟨true, 200, none⟩ none).2.2 = true) :=
  null_value_indistinguishable cNull 10 "u" ⟨none, 0, 300000⟩
    ⟨true, 200, none⟩ none rfl rfl (by decide)

/-- Deleting, in order, every key of a list from the store: a key is
found afterwards exactly when it is outside the list and was found
before. -/
theorem foldl_delete_mapGet (ks : List String) (c : APICache Nat)
    (k : String) :
    mapGet ((ks.foldl (fun acc k' => acc.delete k') c).cache) k
      = if k ∈ ks then none else mapGet c.cache k := by
  induction ks generalizing c with
  | nil => simp
  | cons k0 rest ih =>
    simp only [List.foldl_cons]
    rw [ih]
    by_cases hk : k ∈ rest
    · simp [hk]
    · by_cases hk0 : k = k0
      · subst hk0
        simp [hk, APICache.delete, mapGet_mapDelete]
      · simp [hk, hk0, APICache.delete, mapGet_mapDelete]

/-- C6: after `clearCacheByPattern(pattern)` a key is found in the store
exactly when it does not contain the pattern as a substring and was found
(with the same entry) before; in particular, of the three cached keys
"GET:https://a/x", "GET:https://a/y", "GET:https://b/z", clearing by
"/a/" removes exactly the first two.  An empty match set changes
nothing. -/
theorem clear_by_pattern_selectivity :
    (∀ (c : APICache Nat) (pat k : String),
        mapGet ((clearCacheByPattern c pat).cache) k
          = if strIncludes k pat then none else mapGet c.cache k) ∧
    (mapGet ((clearCacheByPattern cThree "/a/").cache) "GET:https://a/x"
        = none ∧
     mapGet ((clearCacheByPattern cThree "/a/").cache) "GET:https://a/y"
        = none ∧
     mapGet ((clearCacheByPattern cThree "/a/").cache) "GET:https://b/z"
        = mapGet cThree.cache "GET:https://b/z") := by
  have hgen : ∀ (c : APICache Nat) (pat k : String),
      mapGet ((clearCacheByPattern c pat).cache) k
        = if strIncludes k pat then none else mapGet c.cache k := by
    intro c pat k
    unfold clearCacheByPattern
    rw [foldl_delete_mapGet]
    by_cases hincl : strIncludes k pat = true
    · simp only [hincl, if_true]
      by_cases hmem : k ∈ c.getStats.2
      · have hin : k ∈ (c.getStats.2).filter (fun k' => strIncludes k' pat) :=
          List.mem_filter.mpr ⟨hmem, hincl⟩
        simp [hin]
      · have hnm : k ∉ (c.getStats.2).filter (fun k' => strIncludes k' pat) :=
          fun hh => hmem (List.mem_filter.mp hh).1
        have hnone : mapGet c.cache k = none := by
          apply mapGet_eq_none_of_not_mem
          simpa [APICache.getStats] using hmem
        simp [hnm, hnone]
    · have hnm : k ∉ (c.getStats.2).filter (fun k' => strIncludes k' pat) :=
        fun hh => hincl (List.mem_filter.mp hh).2
      simp [hnm, hincl]
  refine ⟨hgen, ?_, ?_, ?_⟩
  · rw [hgen]
    rfl
  · rw [hgen]
    rfl
  · rw [hgen]
    rfl
